import Mathlib

/-!
Verification of the google-drive-downloader program (`download.py`).

Strings are modelled as `List Char` (`Str`); byte payloads as `List Nat`.
The network is modelled by an environment (`Env`) providing the metadata
response and the sequence of chunk results the chunked downloader yields;
observable behaviour (HTTP requests issued, console prints, file writes)
is a trace of `Event`s, and an uncaught Python exception is an
`Option PyError` alongside the trace.
-/

abbrev Str := List Char

/-- Character class `[a-zA-Z0-9_-]` of the file-id pattern in `parse_URL`. -/
def isTokenChar (c : Char) : Bool :=
  ('a' ≤ c && c ≤ 'z') || ('A' ≤ c && c ≤ 'Z') || ('0' ≤ c && c ≤ '9') || c = '_' || c = '-'

/-- One attempt of the regex `/d/([a-zA-Z0-9_-]+)` at the start of `s`:
the literal `/d/` followed by a non-empty greedy run of token characters. -/
def matchHere (s : Str) : Option Str :=
  match s with
  | '/' :: 'd' :: '/' :: rest =>
    let tok := rest.takeWhile isTokenChar
    if tok = [] then none else some tok
  | _ => none

/-- `re.search` for the file-id pattern: try every start position, leftmost first. -/
def reSearch : Str → Option Str
  | [] => none
  | c :: rest =>
    match matchHere (c :: rest) with
    | some tok => some tok
    | none => reSearch rest

/-- `parse_URL` from `download.py`: return the captured group of the first
match, or raise `ValueError("Invalid URL")`. -/
def parse_URL (url : Str) : Except Str Str :=
  match reSearch url with
  | some fid => .ok fid
  | none => .error ("Invalid URL".data)

/-! Specification-side characterization of the pattern `/d/([a-zA-Z0-9_-]+)`:
a decomposition of the URL around a literal `/d/` followed by a non-empty
token, the token maximal (the next character, if any, is not a token
character) and leftmost (no valid decomposition starts earlier). -/

def dSlash : Str := ['/', 'd', '/']

/-- A non-empty run of characters from `[a-zA-Z0-9_-]`. -/
def goodToken (t : Str) : Prop := t ≠ [] ∧ ∀ c ∈ t, isTokenChar c = true

/-- The URL contains a substring `/d/<token>` with `<token>` a non-empty run
of token characters. -/
def hasFileId (s : Str) : Prop :=
  ∃ pre t post, s = pre ++ dSlash ++ t ++ post ∧ goodToken t

/-- `tok` is the token of the first match: a maximal non-empty token run
right after a `/d/`, and no valid `/d/<token>` decomposition starts earlier. -/
def isFirstMaximalToken (s tok : Str) : Prop :=
  ∃ pre post, s = pre ++ dSlash ++ tok ++ post ∧ goodToken tok ∧
    (∀ c, post.head? = some c → isTokenChar c = false) ∧
    (∀ pre' t' post', s = pre' ++ dSlash ++ t' ++ post' → goodToken t' →
      pre.length ≤ pre'.length)

/-! ## The program model

`__main__` of `download.py`, with the network and the filesystem made
explicit.  A run observes: HTTP requests issued, lines printed, files
written; it may end in an uncaught Python exception. -/

/-- Result of one `downloader.next_chunk()` call: a data chunk, or an
`HttpError` with a message. The list being exhausted models `done = True`. -/
inductive ChunkResult where
  | ok (data : List Nat)
  | err (msg : Str)
deriving DecidableEq

/-- Uncaught Python exceptions that can end a run of `__main__`. -/
inductive PyError where
  | valueError
  | typeError
  | keyError
  | osError
deriving DecidableEq

/-- Observable actions of a run, in order. -/
inductive Event where
  | reqMeta (fid : Str)
  | reqGetMedia (fid : Str)
  | reqExport (fid reqMime : Str)
  | printed (msg : Str)
  | wrote (path : Str) (data : List Nat)
deriving DecidableEq

/-- The external world of one run: the URL argument, the metadata response
(`.error` = `HttpError`), the chunk stream both `get_media` and
`export_media` downloads draw from, and whether the disk write succeeds. -/
structure Env where
  url : Str
  meta : Except Str (Str × Str)
  chunks : List ChunkResult
  writeOk : Bool

def metaErrMsg (e : Str) : Str := "HTTP error occurred while fetching meta: ".data ++ e

def dlErrMsg (e : Str) : Str := "HTTP error occurred while downloading file: ".data ++ e

def confMsg (name : Str) : Str := "Downloaded ".data ++ name ++ "!".data

/-- The failure message of `__main__` is a plain string literal, not an
f-string: the braces are printed verbatim. -/
def failMsg : Str := "Failed to download file with id {file_id}...".data

def OUTPUT_DIR : Str := "output/".data

/-- `get_meta`: one metadata request; on `HttpError` print and return `None`. -/
def get_meta (fid : Str) (meta : Except Str (Str × Str)) : List Event × Option (Str × Str) :=
  match meta with
  | .ok nm => ([.reqMeta fid], some nm)
  | .error e => ([.reqMeta fid, .printed (metaErrMsg e)], none)

/-- The `while done is False: downloader.next_chunk()` loop, accumulating
into the `BytesIO` buffer; raises the first chunk's `HttpError` if any. -/
def runDownloadLoop : List ChunkResult → List Nat → Except Str (List Nat)
  | [], acc => .ok acc
  | .ok d :: rest, acc => runDownloadLoop rest (acc ++ d)
  | .err e :: _, _ => .error e

/-- `download_file`: issue the `get_media` request and pull chunks; a caught
`HttpError` prints a message and leaves `file = None`. -/
def download_file (fid : Str) (chunks : List ChunkResult) : List Event × Option (List Nat) :=
  match runDownloadLoop chunks [] with
  | .ok data => ([.reqGetMedia fid], some data)
  | .error e => ([.reqGetMedia fid, .printed (dlErrMsg e)], none)

def MIME_TYPE_WORD_BASE : Str := "application/vnd.openxmlformats-officedocument".data

def MIME_TYPE_INDEX : List (Str × Str) :=
  [("document".data, "wordprocessingml.document".data),
   ("spreadsheet".data, "spreadsheetml.sheet".data),
   ("presentation".data, "presentationml.presentation".data)]

/-- Python `dict` lookup, raising `KeyError` (`none`) on a missing key. -/
def dictLookup (k : Str) : List (Str × Str) → Option Str
  | [] => none
  | (a, b) :: rest => if k = a then some b else dictLookup k rest

/-- Python `str.split(sep)` for a one-character separator. -/
def splitOnChar (sep : Char) : Str → List Str
  | [] => [[]]
  | c :: rest =>
    match splitOnChar sep rest with
    | [] => if c = sep then [[], []] else [[c]]
    | h :: t => if c = sep then [] :: h :: t else (c :: h) :: t

/-- `mime_type.split(".")[-1]` of `export_file`. -/
def docTypeOf (mime : Str) : Str := (splitOnChar '.' mime).getLastD []

/-- `export_file`: look the document subtype up in `MIME_TYPE_INDEX`
(an absent key raises `KeyError` before any request), then issue the
`export_media` request and pull chunks as in `download_file`. -/
def export_file (fid mime : Str) (chunks : List ChunkResult) :
    List Event × Except PyError (Option (List Nat)) :=
  let document_type := docTypeOf mime
  match dictLookup document_type MIME_TYPE_INDEX with
  | none => ([], .error .keyError)
  | some sfx =>
    let request_mime := MIME_TYPE_WORD_BASE ++ '.' :: sfx
    match runDownloadLoop chunks [] with
    | .ok data => ([.reqExport fid request_mime], .ok (some data))
    | .error e => ([.reqExport fid request_mime, .printed (dlErrMsg e)], .ok none)

/-- `get_file_extension` from `download.py`. -/
def get_file_extension (mime : Str) : Str :=
  if mime = "application/vnd.google-apps.document".data then ".docx".data
  else if mime = "application/vnd.google-apps.spreadsheet".data then ".xlsx".data
  else if mime = "application/vnd.google-apps.presentation".data then ".pptx".data
  else "".data

/-- `os.path.join` (POSIX, two components): an absolute second component
discards the first; otherwise a separator is inserted unless present. -/
def osJoin (a b : Str) : Str :=
  if b.head? = some '/' then b
  else if a = [] ∨ a.getLast? = some '/' then a ++ b
  else a ++ '/' :: b

/-- `save_file`: `open(os.path.join(OUTPUT_DIR, filename), "wb").write(...)`;
an `OSError` from the filesystem is uncaught. -/
def save_file (writeOk : Bool) (data : List Nat) (filename : Str) :
    List Event × Option PyError :=
  if writeOk then ([.wrote (osJoin OUTPUT_DIR filename) data], none)
  else ([], some .osError)

/-- Lines 182-186 of `__main__`: print the confirmation then save, or print
the (literal) failure message. -/
def finishDownload (writeOk : Bool) (evts : List Event) (fileMedia : Option (List Nat))
    (name : Str) : List Event × Option PyError :=
  match fileMedia with
  | some data =>
    let sv := save_file writeOk data name
    (evts ++ .printed (confMsg name) :: sv.1, sv.2)
  | none => (evts ++ [.printed failMsg], none)

/-- `__main__` of `download.py`: parse the URL (uncaught `ValueError` on
failure), fetch metadata (unpacking `None` raises `TypeError`), dispatch on
the `application/vnd.google-apps` prefix to export or raw download (the raw
branch re-parses the URL), then write or report failure. -/
def mainRun (env : Env) : List Event × Option PyError :=
  match parse_URL env.url with
  | .error _ => ([], some .valueError)
  | .ok fid =>
    let gm := get_meta fid env.meta
    match gm.2 with
    | none => (gm.1, some .typeError)
    | some (name, mime_type) =>
      if ("application/vnd.google-apps".data).isPrefixOf mime_type then
        let ex := export_file fid mime_type env.chunks
        match ex.2 with
        | .error e => (gm.1 ++ ex.1, some e)
        | .ok fileMedia =>
          let extension := get_file_extension mime_type
          finishDownload env.writeOk (gm.1 ++ ex.1) fileMedia (name ++ extension)
      else
        match parse_URL env.url with
        | .error _ => (gm.1, some .valueError)
        | .ok fid2 =>
          let dl := download_file fid2 env.chunks
          finishDownload env.writeOk (gm.1 ++ dl.1) dl.2 name

/-- The byte content a fully successful chunk stream delivers. -/
def chunkData : ChunkResult → List Nat
  | .ok d => d
  | .err _ => []

def chunksData (chunks : List ChunkResult) : List Nat := (chunks.map chunkData).flatten

/-- Disk semantics of the trace: each `wrote` overwrites the file at its path. -/
def applyEvent (fs : Str → Option (List Nat)) : Event → (Str → Option (List Nat))
  | .wrote path data => fun p => if p = path then some data else fs p
  | _ => fun p => fs p

def applyEvents (fs : Str → Option (List Nat)) (evts : List Event) : Str → Option (List Nat) :=
  evts.foldl applyEvent fs

def isRequestEvent : Event → Bool
  | .reqGetMedia _ => true
  | .reqExport _ _ => true
  | _ => false

def isWroteEvent : Event → Bool
  | .wrote _ _ => true
  | _ => false

def isOkChunk : ChunkResult → Bool
  | .ok _ => true
  | .err _ => false

/-! Concrete environments used to instantiate the theorems. -/

def envC2w : Env :=
  { url := "https://drive.google.com/file/d/abc/view".data,
    meta := .ok ("a.pdf".data, "application/pdf".data),
    chunks := [.ok [1], .err "503".data], writeOk := true }

def envC3w : Env :=
  { url := "https://drive.google.com/file/d/abc/view".data,
    meta := .error "404".data, chunks := [.ok [1]], writeOk := true }

def envC4cx : Env :=
  { url := "https://drive.google.com/file/d/abc/view".data,
    meta := .ok ("F".data, "application/vnd.google-apps.folder".data),
    chunks := [.ok [1]], writeOk := true }

def envC4w : Env :=
  { url := "https://drive.google.com/file/d/abc/view".data,
    meta := .ok ("a.pdf".data, "application/pdf".data),
    chunks := [.ok [1]], writeOk := true }

def envC6w : Env :=
  { url := "https://drive.google.com/file/d/xyz/view".data,
    meta := .ok ("Drawing".data, "application/vnd.google-apps.drawing".data),
    chunks := [.ok [1]], writeOk := true }

def envC7cx : Env :=
  { url := "https://drive.google.com/file/d/abc/view".data,
    meta := .ok ("/evil".data, "application/pdf".data),
    chunks := [.ok [7]], writeOk := true }

def envC7w : Env :=
  { url := "https://drive.google.com/file/d/abc/view".data,
    meta := .ok ("report.pdf".data, "application/pdf".data),
    chunks := [.ok [1, 2], .ok [3]], writeOk := true }

def envC8w : Env :=
  { url := "https://drive.google.com/file/d/abc/view".data,
    meta := .ok ("Sheet".data, "application/vnd.google-apps.spreadsheet".data),
    chunks := [.ok [1, 2]], writeOk := true }

def envC9w : Env :=
  { url := "https://drive.google.com/file/d/abc/view".data,
    meta := .ok ("a.pdf".data, "application/pdf".data),
    chunks := [.ok [4], .ok [5]], writeOk := true }

def envC10w : Env :=
  { url := "https://drive.google.com/file/d/qqq/view".data,
    meta := .ok ("a.pdf".data, "application/pdf".data),
    chunks := [.err "500".data], writeOk := true }

/-! ## Helper lemmas: evaluating a run branch by branch -/

theorem runDownloadLoop_allOk (chunks : List ChunkResult)
    (h : ∀ c ∈ chunks, isOkChunk c = true) :
    ∀ acc, runDownloadLoop chunks acc = .ok (acc ++ chunksData chunks) := by
  induction chunks with
  | nil => intro acc; simp [runDownloadLoop, chunksData]
  | cons c rest ih =>
    intro acc
    have hrest : ∀ x ∈ rest, isOkChunk x = true := fun x hx => h x (List.mem_cons_of_mem _ hx)
    cases c with
    | ok d => simp [runDownloadLoop, ih hrest, chunksData, chunkData, List.append_assoc]
    | err e => exact absurd (h _ (List.mem_cons_self _ rest)) (by simp [isOkChunk])

theorem runDownloadLoop_hasErr (chunks : List ChunkResult) (m : Str)
    (h : ChunkResult.err m ∈ chunks) :
    ∀ acc, ∃ e, runDownloadLoop chunks acc = .error e := by
  induction chunks with
  | nil => cases h
  | cons c rest ih =>
    intro acc
    cases c with
    | ok d =>
      have hm : ChunkResult.err m ∈ rest := by
        cases h with
        | tail _ h => exact h
      obtain ⟨e, he⟩ := ih hm (acc ++ d)
      exact ⟨e, by simp [runDownloadLoop, he]⟩
    | err e => exact ⟨e, by simp [runDownloadLoop]⟩

theorem dictLookup_index_none (k : Str)
    (h1 : k ≠ "document".data) (h2 : k ≠ "spreadsheet".data) (h3 : k ≠ "presentation".data) :
    dictLookup k MIME_TYPE_INDEX = none := by
  simp [dictLookup, MIME_TYPE_INDEX, h1, h2, h3]

theorem finishDownload_some_true (evts : List Event) (data : List Nat) (name : Str) :
    finishDownload true evts (some data) name =
      (evts ++ [.printed (confMsg name), .wrote (osJoin OUTPUT_DIR name) data], none) := by
  simp [finishDownload, save_file]

theorem finishDownload_some_false (evts : List Event) (data : List Nat) (name : Str) :
    finishDownload false evts (some data) name =
      (evts ++ [.printed (confMsg name)], some .osError) := by
  simp [finishDownload, save_file]

theorem mainRun_meta_err (env : Env) (fid e : Str)
    (hp : parse_URL env.url = .ok fid) (hm : env.meta = .error e) :
    mainRun env = ([.reqMeta fid, .printed (metaErrMsg e)], some .typeError) := by
  simp [mainRun, hp, hm, get_meta]

theorem mainRun_raw_okloop (env : Env) (fid name mime : Str) (data : List Nat)
    (hp : parse_URL env.url = .ok fid) (hm : env.meta = .ok (name, mime))
    (hpre : ("application/vnd.google-apps".data).isPrefixOf mime = false)
    (hrl : runDownloadLoop env.chunks [] = .ok data) :
    mainRun env =
      finishDownload env.writeOk [.reqMeta fid, .reqGetMedia fid] (some data) name := by
  simp [mainRun, hp, hm, get_meta, hpre, download_file, hrl]

theorem mainRun_raw_errloop (env : Env) (fid name mime e : Str)
    (hp : parse_URL env.url = .ok fid) (hm : env.meta = .ok (name, mime))
    (hpre : ("application/vnd.google-apps".data).isPrefixOf mime = false)
    (hrl : runDownloadLoop env.chunks [] = .error e) :
    mainRun env =
      ([.reqMeta fid, .reqGetMedia fid, .printed (dlErrMsg e), .printed failMsg], none) := by
  simp [mainRun, hp, hm, get_meta, hpre, download_file, hrl, finishDownload]

theorem mainRun_export_keyErr (env : Env) (fid name mime : Str)
    (hp : parse_URL env.url = .ok fid) (hm : env.meta = .ok (name, mime))
    (hpre : ("application/vnd.google-apps".data).isPrefixOf mime = true)
    (hdt : dictLookup (docTypeOf mime) MIME_TYPE_INDEX = none) :
    mainRun env = ([.reqMeta fid], some .keyError) := by
  simp [mainRun, hp, hm, get_meta, hpre, export_file, hdt]

theorem mainRun_export_okloop (env : Env) (fid name mime sfx : Str) (data : List Nat)
    (hp : parse_URL env.url = .ok fid) (hm : env.meta = .ok (name, mime))
    (hpre : ("application/vnd.google-apps".data).isPrefixOf mime = true)
    (hdt : dictLookup (docTypeOf mime) MIME_TYPE_INDEX = some sfx)
    (hrl : runDownloadLoop env.chunks [] = .ok data) :
    mainRun env =
      finishDownload env.writeOk
        [.reqMeta fid, .reqExport fid (MIME_TYPE_WORD_BASE ++ '.' :: sfx)]
        (some data) (name ++ get_file_extension mime) := by
  simp [mainRun, hp, hm, get_meta, hpre, export_file, hdt, hrl]

theorem mainRun_export_errloop (env : Env) (fid name mime sfx e : Str)
    (hp : parse_URL env.url = .ok fid) (hm : env.meta = .ok (name, mime))
    (hpre : ("application/vnd.google-apps".data).isPrefixOf mime = true)
    (hdt : dictLookup (docTypeOf mime) MIME_TYPE_INDEX = some sfx)
    (hrl : runDownloadLoop env.chunks [] = .error e) :
    mainRun env =
      ([.reqMeta fid, .reqExport fid (MIME_TYPE_WORD_BASE ++ '.' :: sfx),
        .printed (dlErrMsg e), .printed failMsg], none) := by
  simp [mainRun, hp, hm, get_meta, hpre, export_file, hdt, hrl, finishDownload]

/-! ## Claim theorems -/

/-- Claim C5: `get_file_extension` is a pure total function mapping the three
native document types to `.docx`, `.xlsx`, `.pptx` and every other string to
the empty string. -/
theorem C5_get_file_extension_total :
    get_file_extension "application/vnd.google-apps.document".data = ".docx".data ∧
    get_file_extension "application/vnd.google-apps.spreadsheet".data = ".xlsx".data ∧
    get_file_extension "application/vnd.google-apps.presentation".data = ".pptx".data ∧
    ∀ mime : Str, mime ≠ "application/vnd.google-apps.document".data →
      mime ≠ "application/vnd.google-apps.spreadsheet".data →
      mime ≠ "application/vnd.google-apps.presentation".data →
      get_file_extension mime = "".data := by
  refine ⟨rfl, rfl, rfl, ?_⟩
  intro mime h1 h2 h3
  simp [get_file_extension, h1, h2, h3]

theorem C5_witness : get_file_extension "application/pdf".data = "".data :=
  C5_get_file_extension_total.2.2.2 "application/pdf".data (by decide) (by decide) (by decide)

/-- Claim C3: when the metadata fetch fails with a transport error, `get_meta`
prints the error and yields `none`, and the run makes no download request, no
export request and no file write: the disk is left unchanged. -/
theorem C3_meta_failure (env : Env) (fid e : Str)
    (hp : parse_URL env.url = .ok fid) (hm : env.meta = .error e) :
    (get_meta fid env.meta).2 = none ∧
    Event.printed (metaErrMsg e) ∈ (get_meta fid env.meta).1 ∧
    (∀ f, Event.reqGetMedia f ∉ (mainRun env).1) ∧
    (∀ f r, Event.reqExport f r ∉ (mainRun env).1) ∧
    (∀ p d, Event.wrote p d ∉ (mainRun env).1) ∧
    (∀ fs, applyEvents fs (mainRun env).1 = fs) := by
  have h := mainRun_meta_err env fid e hp hm
  refine ⟨by simp [get_meta, hm], by simp [get_meta, hm], ?_, ?_, ?_, ?_⟩
  · intro f; simp [h]
  · intro f r; simp [h]
  · intro p d; simp [h]
  · intro fs; rw [h]; rfl

theorem C3_witness :
    (get_meta "abc".data envC3w.meta).2 = none ∧
    Event.wrote OUTPUT_DIR [0] ∉ (mainRun envC3w).1 :=
  ⟨(C3_meta_failure envC3w "abc".data "404".data rfl rfl).1,
   (C3_meta_failure envC3w "abc".data "404".data rfl rfl).2.2.2.2.1 OUTPUT_DIR [0]⟩

/-- Claim C6: a content type that reaches the export path with a document
subtype outside the export map makes the run fail with an uncaught `KeyError`
before any export request is issued, and nothing is printed or written. -/
theorem C6_unsupported_subtype (env : Env) (fid name mime : Str)
    (hp : parse_URL env.url = .ok fid) (hm : env.meta = .ok (name, mime))
    (hpre : ("application/vnd.google-apps".data).isPrefixOf mime = true)
    (h1 : docTypeOf mime ≠ "document".data)
    (h2 : docTypeOf mime ≠ "spreadsheet".data)
    (h3 : docTypeOf mime ≠ "presentation".data) :
    mainRun env = ([Event.reqMeta fid], some PyError.keyError) ∧
    (export_file fid mime env.chunks).2 = .error PyError.keyError ∧
    (∀ f r, Event.reqExport f r ∉ (mainRun env).1) ∧
    (∀ p d, Event.wrote p d ∉ (mainRun env).1) := by
  have hdt := dictLookup_index_none (docTypeOf mime) h1 h2 h3
  have h := mainRun_export_keyErr env fid name mime hp hm hpre hdt
  refine ⟨h, by simp [export_file, hdt], ?_, ?_⟩
  · intro f r; simp [h]
  · intro p d; simp [h]

theorem C6_witness :
    mainRun envC6w = ([Event.reqMeta "xyz".data], some PyError.keyError) :=
  (C6_unsupported_subtype envC6w "xyz".data "Drawing".data
    "application/vnd.google-apps.drawing".data rfl rfl (by decide)
    (by decide) (by decide) (by decide)).1

/-- Claim C2: a transport failure at any chunk of a raw download or an export
makes the retriever print an error and produce no buffer (`none`); the run
then writes no file (the disk is unchanged), issues exactly one media
request (no retry), and terminates normally printing the failure message. -/
theorem C2_transport_failure (env : Env) (fid name mime m : Str)
    (hp : parse_URL env.url = .ok fid) (hm : env.meta = .ok (name, mime))
    (herr : ChunkResult.err m ∈ env.chunks)
    (hstrat : ("application/vnd.google-apps".data).isPrefixOf mime = false ∨
      (("application/vnd.google-apps".data).isPrefixOf mime = true ∧
       ∃ sfx, dictLookup (docTypeOf mime) MIME_TYPE_INDEX = some sfx)) :
    (download_file fid env.chunks).2 = none ∧
    (∀ sfx, dictLookup (docTypeOf mime) MIME_TYPE_INDEX = some sfx →
      (export_file fid mime env.chunks).2 = .ok none) ∧
    (∃ e, Event.printed (dlErrMsg e) ∈ (mainRun env).1) ∧
    (∀ p d, Event.wrote p d ∉ (mainRun env).1) ∧
    (∀ fs, applyEvents fs (mainRun env).1 = fs) ∧
    (mainRun env).1.countP isRequestEvent = 1 ∧
    (mainRun env).2 = none := by
  obtain ⟨e, he⟩ := runDownloadLoop_hasErr env.chunks m herr []
  have hdl : (download_file fid env.chunks).2 = none := by simp [download_file, he]
  have hex : ∀ sfx, dictLookup (docTypeOf mime) MIME_TYPE_INDEX = some sfx →
      (export_file fid mime env.chunks).2 = .ok none := by
    intro sfx hdt
    simp [export_file, hdt, he]
  cases hstrat with
  | inl hpre =>
    have h := mainRun_raw_errloop env fid name mime e hp hm hpre he
    refine ⟨hdl, hex, ⟨e, by simp [h]⟩, ?_, ?_, ?_, by simp [h]⟩
    · intro p d; simp [h]
    · intro fs; rw [h]; rfl
    · simp [h, List.countP_cons, isRequestEvent]
  | inr hand =>
    obtain ⟨hpre, sfx, hdt⟩ := hand
    have h := mainRun_export_errloop env fid name mime sfx e hp hm hpre hdt he
    refine ⟨hdl, hex, ⟨e, by simp [h]⟩, ?_, ?_, ?_, by simp [h]⟩
    · intro p d; simp [h]
    · intro fs; rw [h]; rfl
    · simp [h, List.countP_cons, isRequestEvent]

theorem C2_witness :
    (download_file "abc".data envC2w.chunks).2 = none ∧
    Event.wrote (osJoin OUTPUT_DIR "a.pdf".data) [1] ∉ (mainRun envC2w).1 ∧
    (mainRun envC2w).1.countP isRequestEvent = 1 :=
  ⟨(C2_transport_failure envC2w "abc".data "a.pdf".data "application/pdf".data
      "503".data rfl rfl (by decide) (Or.inl (by decide))).1,
   (C2_transport_failure envC2w "abc".data "a.pdf".data "application/pdf".data
      "503".data rfl rfl (by decide) (Or.inl (by decide))).2.2.2.1 _ _,
   (C2_transport_failure envC2w "abc".data "a.pdf".data "application/pdf".data
      "503".data rfl rfl (by decide) (Or.inl (by decide))).2.2.2.2.2.1⟩

/-- Claim C10: on the failure path the diagnostic is the fixed literal
`Failed to download file with id {file_id}...` — it contains the text
`{file_id}` verbatim for every input, as the message is not an f-string. -/
theorem C10_literal_placeholder (env : Env) (fid name mime m : Str)
    (hp : parse_URL env.url = .ok fid) (hm : env.meta = .ok (name, mime))
    (herr : ChunkResult.err m ∈ env.chunks)
    (hstrat : ("application/vnd.google-apps".data).isPrefixOf mime = false ∨
      (("application/vnd.google-apps".data).isPrefixOf mime = true ∧
       ∃ sfx, dictLookup (docTypeOf mime) MIME_TYPE_INDEX = some sfx)) :
    Event.printed failMsg ∈ (mainRun env).1 ∧
    failMsg = "Failed to download file with id {file_id}...".data ∧
    ∃ pre post, failMsg = pre ++ "{file_id}".data ++ post := by
  obtain ⟨e, he⟩ := runDownloadLoop_hasErr env.chunks m herr []
  refine ⟨?_, rfl, "Failed to download file with id ".data, "...".data, by decide⟩
  cases hstrat with
  | inl hpre =>
    simp [mainRun_raw_errloop env fid name mime e hp hm hpre he]
  | inr hand =>
    obtain ⟨hpre, sfx, hdt⟩ := hand
    simp [mainRun_export_errloop env fid name mime sfx e hp hm hpre hdt he]

theorem C10_witness :
    Event.printed failMsg ∈ (mainRun envC10w).1 ∧
    (∃ pre post, failMsg = pre ++ "{file_id}".data ++ post) :=
  ⟨(C10_literal_placeholder envC10w "qqq".data "a.pdf".data "application/pdf".data
      "500".data rfl rfl (by decide) (Or.inl (by decide))).1,
   (C10_literal_placeholder envC10w "qqq".data "a.pdf".data "application/pdf".data
      "500".data rfl rfl (by decide) (Or.inl (by decide))).2.2⟩

/-- Claim C4, counterexample: `application/vnd.google-apps.folder` is not one
of the three native online-document types, yet the run does not choose the
raw-download strategy for it — no media request at all is issued and the run
dies in the export branch with a `KeyError`. -/
theorem C4_counterexample :
    "application/vnd.google-apps.folder".data ≠ "application/vnd.google-apps.document".data ∧
    "application/vnd.google-apps.folder".data ≠ "application/vnd.google-apps.spreadsheet".data ∧
    "application/vnd.google-apps.folder".data ≠ "application/vnd.google-apps.presentation".data ∧
    (mainRun envC4cx).1.filter isRequestEvent = [] ∧
    (mainRun envC4cx).2 = some PyError.keyError :=
  ⟨by decide, by decide, by decide, rfl, rfl⟩

/-- Claim C4, amended: the branch is selected by the content-type prefix
`application/vnd.google-apps` alone.  The raw-download request is issued iff
the prefix is absent; with the prefix present the export branch runs (an
export request, or a `KeyError` for a subtype outside the export map). -/
theorem C4_amended_dispatch (env : Env) (fid name mime : Str)
    (hp : parse_URL env.url = .ok fid) (hm : env.meta = .ok (name, mime)) :
    (Event.reqGetMedia fid ∈ (mainRun env).1 ↔
      ("application/vnd.google-apps".data).isPrefixOf mime = false) ∧
    (((mainRun env).2 = some PyError.keyError ∨
        ∃ r, Event.reqExport fid r ∈ (mainRun env).1) ↔
      ("application/vnd.google-apps".data).isPrefixOf mime = true) := by
  cases hB : ("application/vnd.google-apps".data).isPrefixOf mime with
  | false =>
    cases hrl : runDownloadLoop env.chunks [] with
    | ok data =>
      have h := mainRun_raw_okloop env fid name mime data hp hm hB hrl
      cases hw : env.writeOk with
      | true =>
        rw [hw, finishDownload_some_true] at h
        simp [h]
      | false =>
        rw [hw, finishDownload_some_false] at h
        simp [h]
    | error e =>
      have h := mainRun_raw_errloop env fid name mime e hp hm hB hrl
      simp [h]
  | true =>
    cases hdt : dictLookup (docTypeOf mime) MIME_TYPE_INDEX with
    | none =>
      have h := mainRun_export_keyErr env fid name mime hp hm hB hdt
      simp [h]
    | some sfx =>
      cases hrl : runDownloadLoop env.chunks [] with
      | ok data =>
        have h := mainRun_export_okloop env fid name mime sfx data hp hm hB hdt hrl
        cases hw : env.writeOk with
        | true =>
          rw [hw, finishDownload_some_true] at h
          simp [h]
        | false =>
          rw [hw, finishDownload_some_false] at h
          simp [h]
      | error e =>
        have h := mainRun_export_errloop env fid name mime sfx e hp hm hB hdt hrl
        simp [h]

theorem C4_amended_witness :
    (Event.reqGetMedia "abc".data ∈ (mainRun envC4w).1 ↔
      ("application/vnd.google-apps".data).isPrefixOf "application/pdf".data = false) ∧
    (((mainRun envC4w).2 = some PyError.keyError ∨
        ∃ r, Event.reqExport "abc".data r ∈ (mainRun envC4w).1) ↔
      ("application/vnd.google-apps".data).isPrefixOf "application/pdf".data = true) :=
  C4_amended_dispatch envC4w "abc".data "a.pdf".data "application/pdf".data rfl rfl

/-- Claim C7, counterexample: a successful raw download whose fetched display
name begins with `/` is written by `os.path.join` semantics to the display
name itself, outside the fixed output directory. -/
theorem C7_counterexample :
    (mainRun envC7cx).1.filter isWroteEvent = [Event.wrote "/evil".data [7]] ∧
    OUTPUT_DIR.isPrefixOf "/evil".data = false ∧
    (mainRun envC7cx).2 = none :=
  ⟨rfl, by decide, rfl⟩

/-- Claim C7, amended: a successful raw download of N bytes writes exactly one
file, at `os.path.join(OUTPUT_DIR, name)` — inside the output directory
whenever the display name does not begin with `/` — whose content is the
downloaded payload and whose filename is exactly the display name with no
extension appended; the write overwrites any existing file at that path and
touches no other path. -/
theorem C7_amended_raw_success (env : Env) (fid name mime : Str)
    (hp : parse_URL env.url = .ok fid) (hm : env.meta = .ok (name, mime))
    (hpre : ("application/vnd.google-apps".data).isPrefixOf mime = false)
    (hok : ∀ c ∈ env.chunks, isOkChunk c = true)
    (hw : env.writeOk = true) :
    (mainRun env).1.filter isWroteEvent =
      [Event.wrote (osJoin OUTPUT_DIR name) (chunksData env.chunks)] ∧
    (mainRun env).2 = none ∧
    (∀ fs, applyEvents fs (mainRun env).1 =
      fun p => if p = osJoin OUTPUT_DIR name then some (chunksData env.chunks) else fs p) ∧
    (name.head? ≠ some '/' → osJoin OUTPUT_DIR name = OUTPUT_DIR ++ name) := by
  have hrl := runDownloadLoop_allOk env.chunks hok []
  rw [List.nil_append] at hrl
  have h := mainRun_raw_okloop env fid name mime (chunksData env.chunks) hp hm hpre hrl
  rw [hw, finishDownload_some_true] at h
  refine ⟨by simp [h, isWroteEvent], by simp [h], ?_, ?_⟩
  · intro fs; rw [h]; rfl
  · intro hn
    simp only [osJoin, OUTPUT_DIR]
    rw [if_neg hn, if_pos (by right; decide)]

theorem C7_witness :
    (mainRun envC7w).1.filter isWroteEvent =
      [Event.wrote (osJoin OUTPUT_DIR "report.pdf".data) (chunksData envC7w.chunks)] ∧
    osJoin OUTPUT_DIR "report.pdf".data = OUTPUT_DIR ++ "report.pdf".data :=
  ⟨(C7_amended_raw_success envC7w "abc".data "report.pdf".data "application/pdf".data
      rfl rfl (by decide) (by decide) rfl).1,
   (C7_amended_raw_success envC7w "abc".data "report.pdf".data "application/pdf".data
      rfl rfl (by decide) (by decide) rfl).2.2.2 (by decide)⟩

/-- Claim C8: a successful export writes exactly one file, whose filename is
exactly the display name concatenated with the extension resolved from the
file's content type, holding the exported payload. -/
theorem C8_export_naming (env : Env) (fid name mime : Str)
    (hp : parse_URL env.url = .ok fid) (hm : env.meta = .ok (name, mime))
    (hmime : mime = "application/vnd.google-apps.document".data ∨
             mime = "application/vnd.google-apps.spreadsheet".data ∨
             mime = "application/vnd.google-apps.presentation".data)
    (hok : ∀ c ∈ env.chunks, isOkChunk c = true)
    (hw : env.writeOk = true) :
    (mainRun env).1.filter isWroteEvent =
      [Event.wrote (osJoin OUTPUT_DIR (name ++ get_file_extension mime))
        (chunksData env.chunks)] ∧
    (mainRun env).2 = none := by
  have hrl := runDownloadLoop_allOk env.chunks hok []
  rw [List.nil_append] at hrl
  obtain hm1 | hm1 | hm1 := hmime
  · subst hm1
    have h := mainRun_export_okloop env fid name _ "wordprocessingml.document".data
      (chunksData env.chunks) hp hm (by decide) (by decide) hrl
    rw [hw, finishDownload_some_true] at h
    exact ⟨by simp [h, isWroteEvent], by simp [h]⟩
  · subst hm1
    have h := mainRun_export_okloop env fid name _ "spreadsheetml.sheet".data
      (chunksData env.chunks) hp hm (by decide) (by decide) hrl
    rw [hw, finishDownload_some_true] at h
    exact ⟨by simp [h, isWroteEvent], by simp [h]⟩
  · subst hm1
    have h := mainRun_export_okloop env fid name _ "presentationml.presentation".data
      (chunksData env.chunks) hp hm (by decide) (by decide) hrl
    rw [hw, finishDownload_some_true] at h
    exact ⟨by simp [h, isWroteEvent], by simp [h]⟩

theorem C8_witness :
    (mainRun envC8w).1.filter isWroteEvent =
      [Event.wrote (osJoin OUTPUT_DIR ("Sheet".data ++
        get_file_extension "application/vnd.google-apps.spreadsheet".data))
        (chunksData envC8w.chunks)] ∧
    (mainRun envC8w).2 = none :=
  C8_export_naming envC8w "abc".data "Sheet".data
    "application/vnd.google-apps.spreadsheet".data rfl rfl
    (Or.inr (Or.inl rfl)) (by decide) rfl

/-- Claim C9: on the success path the confirmation line is printed before the
file write happens; hence when the disk write fails the confirmation has
still been printed although no file was written. -/
theorem C9_print_before_write (env : Env) (fid name mime : Str)
    (hp : parse_URL env.url = .ok fid) (hm : env.meta = .ok (name, mime))
    (hstrat : ("application/vnd.google-apps".data).isPrefixOf mime = false ∨
      (("application/vnd.google-apps".data).isPrefixOf mime = true ∧
       ∃ sfx, dictLookup (docTypeOf mime) MIME_TYPE_INDEX = some sfx))
    (hok : ∀ c ∈ env.chunks, isOkChunk c = true) :
    ∃ nm before after, (mainRun env).1 = before ++ Event.printed (confMsg nm) :: after ∧
      (∀ p d, Event.wrote p d ∉ before) ∧
      (env.writeOk = false →
        (mainRun env).2 = some PyError.osError ∧
        ∀ p d, Event.wrote p d ∉ (mainRun env).1) := by
  have hrl := runDownloadLoop_allOk env.chunks hok []
  rw [List.nil_append] at hrl
  cases hstrat with
  | inl hpre =>
    have h := mainRun_raw_okloop env fid name mime (chunksData env.chunks) hp hm hpre hrl
    cases hw : env.writeOk with
    | true =>
      rw [hw, finishDownload_some_true] at h
      refine ⟨name, [.reqMeta fid, .reqGetMedia fid],
        [Event.wrote (osJoin OUTPUT_DIR name) (chunksData env.chunks)],
        by simp [h], by intro p d; simp, by intro hc; cases hc⟩
    | false =>
      rw [hw, finishDownload_some_false] at h
      refine ⟨name, [.reqMeta fid, .reqGetMedia fid], [], by simp [h],
        by intro p d; simp, fun _ => ⟨by simp [h], by intro p d; simp [h]⟩⟩
  | inr hand =>
    obtain ⟨hpre, sfx, hdt⟩ := hand
    have h := mainRun_export_okloop env fid name mime sfx (chunksData env.chunks) hp hm hpre hdt hrl
    cases hw : env.writeOk with
    | true =>
      rw [hw, finishDownload_some_true] at h
      refine ⟨name ++ get_file_extension mime,
        [.reqMeta fid, .reqExport fid (MIME_TYPE_WORD_BASE ++ '.' :: sfx)],
        [Event.wrote (osJoin OUTPUT_DIR (name ++ get_file_extension mime))
          (chunksData env.chunks)],
        by simp [h], by intro p d; simp, by intro hc; cases hc⟩
    | false =>
      rw [hw, finishDownload_some_false] at h
      refine ⟨name ++ get_file_extension mime,
        [.reqMeta fid, .reqExport fid (MIME_TYPE_WORD_BASE ++ '.' :: sfx)], [], by simp [h],
        by intro p d; simp, fun _ => ⟨by simp [h], by intro p d; simp [h]⟩⟩

theorem C9_witness :
    ∃ nm before after, (mainRun envC9w).1 = before ++ Event.printed (confMsg nm) :: after ∧
      (∀ p d, Event.wrote p d ∉ before) ∧
      (envC9w.writeOk = false →
        (mainRun envC9w).2 = some PyError.osError ∧
        ∀ p d, Event.wrote p d ∉ (mainRun envC9w).1) :=
  C9_print_before_write envC9w "abc".data "a.pdf".data "application/pdf".data
    rfl rfl (Or.inl (by decide)) (by decide)

/-! ## Lemmas for the URL parser (claim C1) -/

theorem takeWhile_prepend_all (p : Char → Bool) (t : Str)
    (h : ∀ c ∈ t, p c = true) :
    ∀ post : Str, (t ++ post).takeWhile p = t ++ post.takeWhile p := by
  induction t with
  | nil => intro post; simp
  | cons a t ih =>
    intro post
    have ha : p a = true := h a (List.mem_cons_self a t)
    have ht : ∀ c ∈ t, p c = true := fun c hc => h c (List.mem_cons_of_mem _ hc)
    simp [List.takeWhile_cons, ha, ih ht]

theorem dropWhile_head_false (p : Char → Bool) (l : Str) :
    ∀ c, (l.dropWhile p).head? = some c → p c = false := by
  induction l with
  | nil => intro c hc; cases hc
  | cons a t ih =>
    intro c hc
    rw [List.dropWhile_cons] at hc
    by_cases ha : p a = true
    · rw [if_pos ha] at hc; exact ih c hc
    · rw [if_neg ha] at hc
      cases hc
      simpa using ha

theorem matchHere_some_iff (s tok : Str) :
    matchHere s = some tok ↔
      ∃ rest, s = '/' :: 'd' :: '/' :: rest ∧
        tok = rest.takeWhile isTokenChar ∧ tok ≠ [] := by
  constructor
  · intro h
    unfold matchHere at h
    split at h
    · next rest =>
      by_cases he : rest.takeWhile isTokenChar = []
      · rw [if_pos he] at h; cases h
      · rw [if_neg he] at h
        cases h
        exact ⟨rest, rfl, rfl, he⟩
    · cases h
  · rintro ⟨rest, rfl, rfl, hne⟩
    simp [matchHere, hne]

theorem reSearch_some_iff (s : Str) : ∀ tok,
    reSearch s = some tok ↔
      ∃ n, matchHere (s.drop n) = some tok ∧ ∀ m < n, matchHere (s.drop m) = none := by
  induction s with
  | nil =>
    intro tok
    constructor
    · intro h; cases h
    · rintro ⟨n, hn, _⟩
      rw [List.drop_nil] at hn
      cases hn
  | cons c rest ih =>
    intro tok
    cases hmh : matchHere (c :: rest) with
    | some t =>
      constructor
      · intro h
        rw [reSearch, hmh] at h
        cases h
        exact ⟨0, by simpa using hmh, by intro m hm; omega⟩
      · rintro ⟨n, hn, hmin⟩
        cases n with
        | zero =>
          rw [List.drop_zero] at hn
          rw [reSearch, hmh]
          rw [hmh] at hn
          exact hn
        | succ n =>
          have h0 := hmin 0 (Nat.succ_pos n)
          rw [List.drop_zero, hmh] at h0
          cases h0
    | none =>
      rw [reSearch, hmh, ih tok]
      constructor
      · rintro ⟨n, hn, hmin⟩
        refine ⟨n + 1, by simpa using hn, ?_⟩
        intro m hm
        cases m with
        | zero => simpa using hmh
        | succ m =>
          rw [List.drop_succ_cons]
          exact hmin m (Nat.lt_of_succ_lt_succ hm)
      · rintro ⟨n, hn, hmin⟩
        cases n with
        | zero =>
          rw [List.drop_zero, hmh] at hn
          cases hn
        | succ n =>
          rw [List.drop_succ_cons] at hn
          refine ⟨n, hn, ?_⟩
          intro m hm
          have := hmin (m + 1) (Nat.succ_lt_succ hm)
          rw [List.drop_succ_cons] at this
          exact this

theorem reSearch_none_iff (s : Str) :
    reSearch s = none ↔ ∀ n, matchHere (s.drop n) = none := by
  induction s with
  | nil =>
    constructor
    · intro _ n
      rw [List.drop_nil]
      rfl
    · intro _; rfl
  | cons c rest ih =>
    cases hmh : matchHere (c :: rest) with
    | some t =>
      constructor
      · intro h
        rw [reSearch, hmh] at h
        cases h
      · intro hall
        have := hall 0
        rw [List.drop_zero, hmh] at this
        cases this
    | none =>
      rw [reSearch, hmh, ih]
      constructor
      · intro hall n
        cases n with
        | zero => simpa using hmh
        | succ n =>
          rw [List.drop_succ_cons]
          exact hall n
      · intro hall n
        have := hall (n + 1)
        rw [List.drop_succ_cons] at this
        exact this

theorem matchHere_dSlash (t post : Str) (hne : t ≠ [])
    (hall : ∀ c ∈ t, isTokenChar c = true) :
    matchHere (dSlash ++ (t ++ post)) = some (t ++ post.takeWhile isTokenChar) := by
  apply (matchHere_some_iff _ _).mpr
  refine ⟨t ++ post, rfl, (takeWhile_prepend_all isTokenChar t hall post).symm, ?_⟩
  simp [hne]

theorem decomp_of_matchHere (s tok : Str) (n : Nat)
    (h : matchHere (s.drop n) = some tok) :
    ∃ post, (s.take n).length = n ∧ s = s.take n ++ dSlash ++ tok ++ post ∧
      goodToken tok ∧ (∀ c, post.head? = some c → isTokenChar c = false) := by
  obtain ⟨rest, hrest, htok, hne⟩ := (matchHere_some_iff _ _).mp h
  have hlen : n < s.length := by
    by_contra hle
    push_neg at hle
    rw [List.drop_eq_nil_of_le hle] at hrest
    cases hrest
  have h2 : rest = tok ++ rest.dropWhile isTokenChar := by
    conv_lhs => rw [← List.takeWhile_append_dropWhile (p := isTokenChar) (l := rest)]
    rw [← htok]
  refine ⟨rest.dropWhile isTokenChar, ?_, ?_, ⟨hne, ?_⟩, ?_⟩
  · rw [List.length_take]; omega
  · calc s = s.take n ++ s.drop n := (List.take_append_drop n s).symm
    _ = s.take n ++ ('/' :: 'd' :: '/' :: rest) := by rw [hrest]
    _ = s.take n ++ ('/' :: 'd' :: '/' :: (tok ++ rest.dropWhile isTokenChar)) := by
        rw [← h2]
    _ = s.take n ++ dSlash ++ tok ++ rest.dropWhile isTokenChar := by
        simp [dSlash]
  · intro c hc
    rw [htok] at hc
    exact List.mem_takeWhile_imp hc
  · exact dropWhile_head_false isTokenChar rest

theorem reSearch_finds_first (s : Str) (h : hasFileId s) :
    ∃ tok, reSearch s = some tok ∧ isFirstMaximalToken s tok := by
  have key : ∀ pre t post : Str, s = pre ++ dSlash ++ t ++ post → goodToken t →
      ∃ tk, matchHere (s.drop pre.length) = some tk := by
    intro pre t post heq hgt
    rw [heq]
    have hassoc : pre ++ dSlash ++ t ++ post = pre ++ (dSlash ++ (t ++ post)) := by
      simp [List.append_assoc]
    rw [hassoc, List.drop_left]
    exact ⟨_, matchHere_dSlash t post hgt.1 hgt.2⟩
  obtain ⟨pre, t, post, heq, hgt⟩ := h
  cases hres : reSearch s with
  | none =>
    exfalso
    rw [reSearch_none_iff] at hres
    obtain ⟨tk, htk⟩ := key pre t post heq hgt
    rw [hres pre.length] at htk
    cases htk
  | some tok =>
    obtain ⟨n, hn, hmin⟩ := (reSearch_some_iff s tok).mp hres
    obtain ⟨post', hlen, hdec, hgt', hhead⟩ := decomp_of_matchHere s tok n hn
    refine ⟨tok, rfl, s.take n, post', hdec, hgt', hhead, ?_⟩
    intro pre' t' post'' heq' hgt''
    rw [hlen]
    by_contra hlt
    push_neg at hlt
    obtain ⟨tk, htk⟩ := key pre' t' post'' heq' hgt''
    rw [hmin pre'.length hlt] at htk
    cases htk

theorem reSearch_none_of_no_fileId (s : Str) (h : ¬ hasFileId s) : reSearch s = none := by
  rw [reSearch_none_iff]
  intro n
  cases hmh : matchHere (s.drop n) with
  | none => rfl
  | some tok =>
    exfalso
    obtain ⟨post, _, hdec, hgt, _⟩ := decomp_of_matchHere s tok n hmh
    exact h ⟨s.take n, tok, post, hdec, hgt⟩

/-- Claim C1: for every URL containing `/d/<token>` with `<token>` a
non-empty run of characters from `[a-zA-Z0-9_-]`, `parse_URL` returns
exactly the maximal such run following the first (leftmost) `/d/` that one
follows; for every other string it fails with the `Invalid URL` error and
does nothing else. -/
theorem C1_parse_URL_correct (s : Str) :
    (hasFileId s → ∃ tok, parse_URL s = .ok tok ∧ isFirstMaximalToken s tok) ∧
    (¬ hasFileId s → parse_URL s = .error ("Invalid URL".data)) := by
  constructor
  · intro h
    obtain ⟨tok, hr, hf⟩ := reSearch_finds_first s h
    exact ⟨tok, by simp [parse_URL, hr], hf⟩
  · intro h
    simp [parse_URL, reSearch_none_of_no_fileId s h]

theorem C1_witness :
    hasFileId ("https://drive.google.com/file/d/1aBcD_23xyZ/view".data) ∧
    (∃ tok, parse_URL ("https://drive.google.com/file/d/1aBcD_23xyZ/view".data) = .ok tok ∧
      isFirstMaximalToken ("https://drive.google.com/file/d/1aBcD_23xyZ/view".data) tok) ∧
    parse_URL ("https://example.com/abc".data) = .error ("Invalid URL".data) := by
  have hh : hasFileId ("https://drive.google.com/file/d/1aBcD_23xyZ/view".data) :=
    ⟨"https://drive.google.com/file".data, "1aBcD_23xyZ".data, "/view".data,
      by decide, by decide, by decide⟩
  have hn : ¬ hasFileId ("https://example.com/abc".data) := by
    intro hex
    obtain ⟨tok, htok, _⟩ := (C1_parse_URL_correct _).1 hex
    rw [show parse_URL ("https://example.com/abc".data) =
      .error ("Invalid URL".data) from rfl] at htok
    cases htok
  exact ⟨hh, (C1_parse_URL_correct _).1 hh, (C1_parse_URL_correct _).2 hn⟩
